import Mathlib

/-!
# Verification of the flowy / pyswf decision engine

Shallow embedding of the repository's decision-engine core:

* `Pyswf` models `src/pyswf/workflow.py` — the replay runtime (`Workflow.resume`,
  `ActivityProxy.make_proxy`, `has_placeholders`, `get_args_error`).
* `FlowySched` models `src/flowy/scheduler.py` — `OptionsScheduler` (options
  stack) and `ArgsDependencyScheduler` (placeholder / error short-circuits).
* `FlowyRuntime` models the options push of `src/flowy/runtime.py`
  (`OptionsRuntime.options`).
* `FlowyClient` models `src/flowy/client.py` — the `WorkflowResponse` history
  projector, its retry bookkeeping and the execution-context serialization.

Python data is modelled as: dict = insertion-ordered association list
(update-in-place on an existing key, append on a new one), set = duplicate-free
list with membership-guarded insertion, unbounded int = `Int` (or `Nat` where
the source only ever holds non-negative values), raised exception = error value
threaded explicitly. Opaque payloads (serialized arguments, activity results)
are `String`.
-/

deriving instance DecidableEq for Except

namespace Pyswf

/-- The tri-state value of `pyswf.workflow.MaybeResult`: the sentinel
placeholder, a resolved result, or an error carried with `is_error=True`. -/
inductive MaybeResult where
  | placeholder
  | res (v : String)
  | err (reason : String)
  deriving DecidableEq

/-- A Python value passed as an argument to an activity proxy: either an
ordinary (JSON-serializable) value or a `MaybeResult` instance. -/
inductive PyVal where
  | plain (s : String)
  | mr (m : MaybeResult)
  deriving DecidableEq

/-- An element of the list `list(args) + list(kwargs.items())` built inside
`has_placeholders` and `get_args_error`: positional entries are the argument
values themselves, keyword entries are `(key, value)` tuples. -/
inductive Elem where
  | val (v : PyVal)
  | pair (k : String) (v : PyVal)
  deriving DecidableEq

/-- The list `list(args) + list(kwargs.items())`. -/
def elemsOf (args : List PyVal) (kwargs : List (String × PyVal)) : List Elem :=
  args.map Elem.val ++ kwargs.map (fun p => Elem.pair p.1 p.2)

/-- `isinstance(r, MaybeResult)`: only a positional element that is itself a
`MaybeResult` passes; a `(key, value)` tuple never does. -/
def asMaybeResult : Elem → Option MaybeResult
  | .val (.mr m) => some m
  | _ => none

/-- `ActivityProxy.has_placeholders`: whether any `MaybeResult` among
`list(args) + list(kwargs.items())` is a placeholder. -/
def hasPlaceholders (args : List PyVal) (kwargs : List (String × PyVal)) : Bool :=
  (elemsOf args kwargs).any fun e =>
    match asMaybeResult e with
    | some .placeholder => true
    | _ => false

/-- The exceptions that can escape an activity-proxy call: the `_SyncNeeded`
control signal, `_UnhandledActivityError`, `ActivityError` (raised by
`MaybeResult.result()` on an error value), and the `TypeError` that
`json.dumps` raises on a `MaybeResult` instance. -/
inductive PyExn where
  | syncNeeded
  | unhandled (msg : String)
  | activityError (msg : String)
  | typeError
  deriving DecidableEq

/-- `ActivityProxy.get_args_error`: scan the `MaybeResult` elements of
`list(args) + list(kwargs.items())`, calling `r.result()` on each under
`except ActivityError`. An error value yields its reason; a placeholder makes
`result()` raise `_SyncNeeded`, which the handler does not catch, so it
propagates; a resolved value lets the scan continue. -/
def getArgsError : List Elem → Except PyExn (Option String)
  | [] => .ok none
  | e :: rest =>
    match asMaybeResult e with
    | some .placeholder => .error .syncNeeded
    | some (.err r) => .ok (some r)
    | _ => getArgsError rest

/-- One JSON-encoded value inside `serialize_activity_input`: `json.dumps`
raises `TypeError` on any `MaybeResult` instance (the proxy serializes the
argument objects directly, without unwrapping). -/
def jsonOfPyVal : PyVal → Except PyExn String
  | .plain s => .ok s
  | .mr _ => .error .typeError

/-- Serialize a list of positional arguments, failing on the first
non-serializable one. -/
def serializeVals : List PyVal → Except PyExn (List String)
  | [] => .ok []
  | a :: rest => do
    let s ← jsonOfPyVal a
    let r ← serializeVals rest
    .ok (s :: r)

/-- Serialize the keyword arguments, failing on the first non-serializable
value. -/
def serializeKw : List (String × PyVal) → Except PyExn (List String)
  | [] => .ok []
  | p :: rest => do
    let s ← jsonOfPyVal p.2
    let r ← serializeKw rest
    .ok ((p.1 ++ "=" ++ s) :: r)

/-- `ActivityProxy.serialize_activity_input`: the `json.dumps` of
`{"args": args, "kwargs": kwargs}`, as a canonical opaque string. -/
def serializeActivityInput (args : List PyVal) (kwargs : List (String × PyVal)) :
    Except PyExn String := do
  let a ← serializeVals args
  let k ← serializeKw kwargs
  .ok ("args:[" ++ String.intercalate "," a ++ "];kwargs:[" ++
    String.intercalate "," k ++ "]")

/-- `ActivityProxy.deserialize_activity_result` (`json.loads`) on the opaque
raw payloads the model carries: identity. -/
def deserializeActivityResult (raw : String) : String := raw

/-- The projected per-call state the proxy consults — the `WorkflowResponse`
interface used by `make_proxy`: `activity_result`, `activity_error`,
`is_activity_scheduled`. -/
structure Ctx where
  result : Nat → Option String
  error : Nat → Option String
  isScheduled : Nat → Bool

/-- One schedule request queued by `Workflow._queue_activity` — projected to
the fields named by the determinism contract (`call_id`, name, version,
serialized input); the attached options are not part of that contract. -/
structure SchedReq where
  call_id : Nat
  name : String
  version : String
  input : String
  deriving DecidableEq

/-- The mutable runtime state of a `Workflow` instance: the call-id counter,
the error-handling stack (head is the top), and the per-turn `_scheduled`
list. The options stack is omitted here: its contents never influence which
calls run nor the `(call_id, name, version, input)` projection (it is modelled
separately for the options claims). -/
structure WfObj where
  currentCallId : Nat
  ehStack : List Bool
  scheduled : List SchedReq
  deriving DecidableEq

/-- An argument at a call site of the straight-line workflow programs the
model replays: a literal value, or the `MaybeResult` returned by the `i`-th
earlier proxy call. -/
inductive ArgSrc where
  | lit (v : PyVal)
  | ref (i : Nat)
  deriving DecidableEq

/-- One source-order proxy call site: activity name/version, its positional
and keyword arguments, and whether the workflow immediately calls
`.result()` on the returned value. -/
structure Site where
  name : String
  version : String
  args : List ArgSrc
  kwargs : List (String × ArgSrc)
  deref : Bool
  deriving DecidableEq

/-- Resolve a call-site argument against the outcomes of the already-executed
calls. -/
def resolveArg (outs : List MaybeResult) : ArgSrc → PyVal
  | .lit v => v
  | .ref i => .mr (outs.getD i .placeholder)

/-- The body of the closure built by `ActivityProxy.make_proxy`, for one call
with call id `callId`: consult the projected state, raise on an argument
error, otherwise schedule when unblocked, returning the `MaybeResult` the
workflow code sees together with the schedule request queued (if any). -/
def proxyStep (ctx : Ctx) (manual : Bool) (callId : Nat) (site : Site)
    (outs : List MaybeResult) : Except PyExn (MaybeResult × Option SchedReq) :=
  let args := site.args.map (resolveArg outs)
  let kwargs := site.kwargs.map fun p => (p.1, resolveArg outs p.2)
  match ctx.result callId, ctx.error callId with
  | none, none => do
    let argsErr ← getArgsError (elemsOf args kwargs)
    match argsErr with
    | some msg => .error (.unhandled ("Error when calling activity: " ++ msg))
    | none =>
      if hasPlaceholders args kwargs || ctx.isScheduled callId then
        .ok (.placeholder, none)
      else do
        let input ← serializeActivityInput args kwargs
        .ok (.placeholder, some ⟨callId, site.name, site.version, input⟩)
  | _, some r =>
    if manual then .ok (.err r, none) else .error (.unhandled r)
  | some v, none => .ok (.res (deserializeActivityResult v), none)

/-- What dereferencing (`.result()`) the outcome of a call site raises, if
anything: `_SyncNeeded` on a placeholder, `ActivityError` on an error value. -/
def derefExn (site : Site) (m : MaybeResult) : Option PyExn :=
  if site.deref then
    match m with
    | .placeholder => some .syncNeeded
    | .err r => some (.activityError r)
    | .res _ => none
  else none

/-- Execute the call sites in source order, threading the workflow object.
Returns the final object, the list of call ids assigned (in order), and the
exception that ended the run, if any. Each executed site consumes exactly one
id from `_next_call_id`. -/
def runSites (ctx : Ctx) (manual : Bool) :
    List Site → WfObj → List MaybeResult → WfObj × List Nat × Option PyExn
  | [], st, _ => (st, [], none)
  | site :: rest, st, outs =>
    let cid := st.currentCallId
    let st1 : WfObj := { st with currentCallId := cid + 1 }
    match proxyStep ctx manual cid site outs with
    | .error e => (st1, [cid], some e)
    | .ok (m, req) =>
      let st2 : WfObj :=
        match req with
        | some r => { st1 with scheduled := st1.scheduled ++ [r] }
        | none => st1
      match derefExn site m with
      | some e => (st2, [cid], some e)
      | none =>
        let next := runSites ctx manual rest st2 (outs ++ [m])
        (next.1, cid :: next.2.1, next.2.2)

/-- `Workflow.resume`: reset the per-turn `_scheduled` list, run the workflow
body catching only `_SyncNeeded`, and — on those two exits only — zero the
call-id counter (`self._current_call_id = 0` is the last statement before the
return, so a body that raises anything else skips it) and hand back the
queued schedule requests. The serialized input is deserialized and passed to
`run`; the straight-line programs modelled here do not read it further. -/
def resume (p : List Site) (st : WfObj) (ctx : Ctx) (_input : String) :
    WfObj × Except PyExn (List SchedReq) :=
  let manual := st.ehStack.headD false
  let r := runSites ctx manual p { st with scheduled := [] } []
  match r.2.2 with
  | none => ({ r.1 with currentCallId := 0 }, .ok r.1.scheduled)
  | some .syncNeeded => ({ r.1 with currentCallId := 0 }, .ok r.1.scheduled)
  | some e => (r.1, .error e)

/-- The call ids `_next_call_id` hands out, in order, during one `resume`. -/
def assignedIds (p : List Site) (st : WfObj) (ctx : Ctx) : List Nat :=
  (runSites ctx (st.ehStack.headD false) p { st with scheduled := [] } []).2.1

/-- A fresh `Workflow` instance as `__init__` leaves it: counter 0, error
handling off, nothing scheduled. -/
def wf0 : WfObj := ⟨0, [false], []⟩

/-- A projector state with no results, no errors, nothing outstanding. -/
def ctxEmpty : Ctx := ⟨fun _ => none, fun _ => none, fun _ => false⟩

/-- A projector state in which call 0 failed with reason `"boom"`. -/
def ctxErr : Ctx :=
  ⟨fun _ => none, fun n => if n = 0 then some "boom" else none, fun _ => false⟩

/-- A one-site workflow: a single activity call with no arguments. -/
def p1 : List Site := [⟨"f", "1", [], [], false⟩]

/-- The workflow-object state left behind by a `resume` of `p1` against
`ctxErr`: the unhandled activity error propagates out of `run`, so the
counter reset is skipped. -/
def stA : WfObj := (resume p1 wf0 ctxErr "in").1

/-- A call site whose only argument is a keyword placeholder. -/
def site3 : Site := ⟨"f", "1", [], [("x", .lit (.mr .placeholder))], false⟩

/-- A call site whose two positional arguments are the error values
`Error("a")` and `Error("b")`. -/
def site4 : Site :=
  ⟨"g", "1", [.lit (.mr (.err "a")), .lit (.mr (.err "b"))], [], false⟩

end Pyswf

namespace FlowySched

/-- Modelled from the spec: `Placeholder`, `Result`, `Error` come from
`flowy/result.py`, which is not under `src/`; §4.A of the spec describes them
as a tagged tri-state (`Result` carrying the deserialized value, `Error`
carrying a reason read through `_reason`). `plain` stands for an ordinary
value that is none of the three. -/
inductive RVal where
  | placeholder
  | result (v : String)
  | error (reason : String)
  | plain (v : String)
  deriving DecidableEq

/-- Modelled from the spec: `posint_or_none` from `flowy/__init__.py` (not
under `src/`); §4.B normalization — "all timeouts are non-negative integers
or unset", "`retry` and `delay` are clamped to `max(⌊x⌋, 0)`". -/
def posintOrNone (x : Option Int) : Option Int := x.map fun v => max v 0

/-- Modelled from the spec: `posint` from `flowy/__init__.py` (not under
`src/`); the `max(⌊x⌋, 0)` clamp of §4.B. -/
def posint (x : Int) : Int := max x 0

/-- Modelled from the spec: `str_or_none` from `flowy/__init__.py` (not under
`src/`); `task_list` is "an optional string", passed through unchanged. -/
def strOrNone (x : Option String) : Option String := x

/-- Modelled from the spec: `int_or_none` from `flowy/__init__.py` (not under
`src/`), used by `flowy/runtime.py`; an int-or-None coercion, the identity on
the optional integers the model carries. -/
def intOrNone (x : Option Int) : Option Int := x

/-- `tuple(args) + tuple(kwargs.values())` as built by
`ArgsDependencyScheduler._args_based_result` (the values, not the items). -/
def combinedArgs (args : List RVal) (kwargs : List (String × RVal)) : List RVal :=
  args ++ kwargs.map Prod.snd

/-- `_deps_in_args`: any `Placeholder` among the combined arguments. -/
def depsInArgs (l : List RVal) : Bool :=
  l.any fun r =>
    match r with
    | .placeholder => true
    | _ => false

/-- `_errs_in_args` composed with the `e._reason` projection: the reasons of
the `Error` arguments, in argument order. -/
def errsInArgs (l : List RVal) : List String :=
  l.filterMap fun r =>
    match r with
    | .error m => some m
    | _ => none

/-- The outcome of `_args_based_result`: a fresh `Placeholder` without
scheduling, an `Error` value, a `fail(reason)` request plus a `Placeholder`,
or `None` (fall through and schedule). -/
inductive ABResult where
  | blocked
  | errorValue (reason : String)
  | failed (reason : String)
  | proceed
  deriving DecidableEq

/-- `ArgsDependencyScheduler._args_based_result`: placeholders block; else
error arguments compose their reasons newline-separated, returning
`Error(composed)` under `error_handling` and otherwise requesting
`fail(composed)`; else fall through. -/
def argsBasedResult (args : List RVal) (kwargs : List (String × RVal))
    (errorHandling : Bool) : ABResult :=
  let l := combinedArgs args kwargs
  if depsInArgs l then .blocked
  else
    let errs := errsInArgs l
    if errs.isEmpty then .proceed
    else if errorHandling then .errorValue (String.intercalate "\n" errs)
    else .failed (String.intercalate "\n" errs)

/-- `_serialize_args` raw extraction: `arg.result()` on `Result` values,
everything else passed through; on the proceed path only resolved and plain
values remain. -/
def rawOf : RVal → String
  | .result v => v
  | .plain v => v
  | .placeholder => ""
  | .error r => r

/-- `_serialize_args` as a canonical opaque encoding of the raw positional
and keyword arguments. -/
def serializeArgsF (args : List RVal) (kwargs : List (String × RVal)) : String :=
  "args:[" ++ String.intercalate "," (args.map rawOf) ++ "];kwargs:[" ++
    String.intercalate "," (kwargs.map fun p => p.1 ++ "=" ++ rawOf p.2) ++ "]"

/-- `ArgsDependencyScheduler.remote_activity` observed through its effects:
the value returned to the caller, the pending schedule batch after the call,
and the reason passed to `self._scheduler.fail`, if any. On fall-through the
underlying scheduler receives the serialized input (appended to the batch)
and the caller sees a placeholder for the not-yet-resolved call. -/
def remoteActivityADS (batch : List (Nat × String)) (taskId : Nat)
    (args : List RVal) (kwargs : List (String × RVal)) (errorHandling : Bool) :
    RVal × List (Nat × String) × Option String :=
  match argsBasedResult args kwargs errorHandling with
  | .blocked => (.placeholder, batch, none)
  | .errorValue r => (.error r, batch, none)
  | .failed r => (.placeholder, batch, some r)
  | .proceed =>
    (.placeholder, batch ++ [(taskId, serializeArgsF args kwargs)], none)

/-- One frame of the (activity or sub-workflow) options dicts: a field is
`none` when the key is absent from the dict, `some v` when the key is present
with (already normalized) value `v`. The frame type is the union of the
activity and sub-workflow key sets. -/
structure Frame where
  heartbeat : Option (Option Int) := none
  schedule_to_close : Option (Option Int) := none
  schedule_to_start : Option (Option Int) := none
  start_to_close : Option (Option Int) := none
  workflow_duration : Option (Option Int) := none
  decision_duration : Option (Option Int) := none
  task_list : Option (Option String) := none
  retry : Option Int := none
  delay : Option Int := none
  error_handling : Option Bool := none
  deriving DecidableEq

/-- The empty dict `dict()` both stacks start from. -/
def Frame.empty : Frame := {}

/-- `dict(base, **new)`: every key of `new` overrides `base`. -/
def mergeFrame (base new : Frame) : Frame where
  heartbeat := new.heartbeat.orElse fun _ => base.heartbeat
  schedule_to_close := new.schedule_to_close.orElse fun _ => base.schedule_to_close
  schedule_to_start := new.schedule_to_start.orElse fun _ => base.schedule_to_start
  start_to_close := new.start_to_close.orElse fun _ => base.start_to_close
  workflow_duration := new.workflow_duration.orElse fun _ => base.workflow_duration
  decision_duration := new.decision_duration.orElse fun _ => base.decision_duration
  task_list := new.task_list.orElse fun _ => base.task_list
  retry := new.retry.orElse fun _ => base.retry
  delay := new.delay.orElse fun _ => base.delay
  error_handling := new.error_handling.orElse fun _ => base.error_handling

/-- The parameters of one `options(...)` block: a field is `none` when the
keyword was left at its `_sentinel` default, `some raw` when it was passed
(with `raw` itself optional where Python accepts `None`). -/
structure BlockParams where
  heartbeat : Option (Option Int) := none
  schedule_to_close : Option (Option Int) := none
  schedule_to_start : Option (Option Int) := none
  start_to_close : Option (Option Int) := none
  workflow_duration : Option (Option Int) := none
  decision_duration : Option (Option Int) := none
  task_list : Option (Option String) := none
  retry : Option Int := none
  delay : Option Int := none
  error_handling : Option Bool := none
  deriving DecidableEq

/-- The `a_options` dict `OptionsScheduler.options` builds: the activity
fields the block passes, normalized with `posint_or_none` / `str_or_none` /
`max(int(x), 0)` / `bool(x)`; `workflow_duration` and `decision_duration`
never enter it. -/
def mkAFrame (p : BlockParams) : Frame where
  heartbeat := p.heartbeat.map posintOrNone
  schedule_to_close := p.schedule_to_close.map posintOrNone
  schedule_to_start := p.schedule_to_start.map posintOrNone
  start_to_close := p.start_to_close.map posintOrNone
  workflow_duration := none
  decision_duration := none
  task_list := p.task_list.map strOrNone
  retry := p.retry.map fun x => max x 0
  delay := p.delay.map fun x => max x 0
  error_handling := p.error_handling

/-- The `s_options` dict `OptionsScheduler.options` builds: the sub-workflow
fields the block passes; the four activity timeouts never enter it. -/
def mkSFrame (p : BlockParams) : Frame where
  heartbeat := none
  schedule_to_close := none
  schedule_to_start := none
  start_to_close := none
  workflow_duration := p.workflow_duration.map posintOrNone
  decision_duration := p.decision_duration.map posintOrNone
  task_list := p.task_list.map strOrNone
  retry := p.retry.map fun x => max x 0
  delay := p.delay.map fun x => max x 0
  error_handling := p.error_handling

/-- The two option stacks of an `OptionsScheduler` (head is the Python
`[-1]` top). -/
structure OS where
  aStack : List Frame
  sStack : List Frame
  deriving DecidableEq

/-- `OptionsScheduler.__init__`: both stacks hold one empty dict. -/
def osInit : OS := ⟨[Frame.empty], [Frame.empty]⟩

/-- The push half of `OptionsScheduler.options`: append
`dict(stack[-1], **a_options)` to the activity stack and
`dict(stack[-1], **s_options)` to the sub-workflow stack. -/
def pushBlockSched (os : OS) (p : BlockParams) : OS where
  aStack := mergeFrame (os.aStack.headD Frame.empty) (mkAFrame p) :: os.aStack
  sStack := mergeFrame (os.sStack.headD Frame.empty) (mkSFrame p) :: os.sStack

/-- The per-call keyword arguments of `OptionsScheduler.remote_activity`,
with their Python defaults (`retry=3`, `delay=0`, `error_handling=False`,
timeouts and `task_list` absent). -/
structure CallParams where
  heartbeat : Option Int := none
  schedule_to_close : Option Int := none
  schedule_to_start : Option Int := none
  start_to_close : Option Int := none
  task_list : Option String := none
  retry : Int := 3
  delay : Int := 0
  error_handling : Bool := false
  deriving DecidableEq

/-- The effective activity options `OptionsScheduler.remote_activity` passes
on: the normalized call-site dict, then `options.update(stack[-1])` — any
field present in the stack top wins. -/
structure AOpts where
  heartbeat : Option Int
  schedule_to_close : Option Int
  schedule_to_start : Option Int
  start_to_close : Option Int
  task_list : Option String
  retry : Int
  delay : Int
  error_handling : Bool
  deriving DecidableEq

/-- Build the effective activity options from the activity-stack top and the
call-site parameters. -/
def effAOpts (top : Frame) (cp : CallParams) : AOpts where
  heartbeat := top.heartbeat.getD (posintOrNone cp.heartbeat)
  schedule_to_close := top.schedule_to_close.getD (posintOrNone cp.schedule_to_close)
  schedule_to_start := top.schedule_to_start.getD (posintOrNone cp.schedule_to_start)
  start_to_close := top.start_to_close.getD (posintOrNone cp.start_to_close)
  task_list := top.task_list.getD (strOrNone cp.task_list)
  retry := top.retry.getD (posint cp.retry)
  delay := top.delay.getD (posint cp.delay)
  error_handling := top.error_handling.getD cp.error_handling

/-- The activity-stack top after entering the blocks `ps` (outermost first)
from a fresh `OptionsScheduler`. -/
def aTopAfter (ps : List BlockParams) : Frame :=
  ((ps.foldl pushBlockSched osInit).aStack).headD Frame.empty

/-- Innermost-wins scan of one field over a nest of blocks: the value defined
by the innermost (latest) block that defines the field, if any. -/
def innermostA (ps : List BlockParams) (g : Frame → Option α) : Option α :=
  ps.foldl (fun acc p => (g (mkAFrame p)).orElse fun _ => acc) none

/-- `contextmanager` semantics of `OptionsScheduler.options` around a block
body: push the merged frames, run the body (which returns the mutated state
and `true`, or the state at the point an exception unwound and `false`), and
pop both stacks only on a normal exit — the generator has no `try/finally`,
so an exception thrown into it at the `yield` skips the `pop()` calls. -/
def optionsBlock (os : OS) (p : BlockParams) (body : OS → OS × Bool) : OS × Bool :=
  let r := body (pushBlockSched os p)
  if r.2 then (⟨r.1.aStack.tail, r.1.sStack.tail⟩, true)
  else r

end FlowySched

namespace FlowyRuntime

open FlowySched

/-- The `a_options` dict `OptionsRuntime.options` builds (`flowy/runtime.py`,
which normalizes with `int_or_none` instead of `posint_or_none`). -/
def mkAFrameR (p : BlockParams) : Frame where
  heartbeat := p.heartbeat.map intOrNone
  schedule_to_close := p.schedule_to_close.map intOrNone
  schedule_to_start := p.schedule_to_start.map intOrNone
  start_to_close := p.start_to_close.map intOrNone
  workflow_duration := none
  decision_duration := none
  task_list := p.task_list.map strOrNone
  retry := p.retry.map fun x => max x 0
  delay := p.delay.map fun x => max x 0
  error_handling := p.error_handling

/-- The `s_options` dict `OptionsRuntime.options` builds — computed by the
source and then never used (see `pushBlockRuntime`). -/
def mkSFrameR (p : BlockParams) : Frame where
  heartbeat := none
  schedule_to_close := none
  schedule_to_start := none
  start_to_close := none
  workflow_duration := p.workflow_duration.map intOrNone
  decision_duration := p.decision_duration.map intOrNone
  task_list := p.task_list.map strOrNone
  retry := p.retry.map fun x => max x 0
  delay := p.delay.map fun x => max x 0
  error_handling := p.error_handling

/-- The push half of `OptionsRuntime.options` as written in
`flowy/runtime.py` lines 106–111: the activity stack receives
`dict(top, **a_options)`, and the sub-workflow stack also receives
`dict(top, **a_options)` — `a_options`, not `s_options`. -/
def pushBlockRuntime (os : OS) (p : BlockParams) : OS where
  aStack := mergeFrame (os.aStack.headD Frame.empty) (mkAFrameR p) :: os.aStack
  sStack := mergeFrame (os.sStack.headD Frame.empty) (mkAFrameR p) :: os.sStack

/-- The per-call keyword arguments of `OptionsRuntime.remote_subworkflow`,
with their Python defaults. -/
structure SCallParams where
  workflow_duration : Option Int := none
  decision_duration : Option Int := none
  task_list : Option String := none
  retry : Int := 3
  delay : Int := 0
  error_handling : Bool := false
  deriving DecidableEq

/-- The `options` dict `OptionsRuntime.remote_subworkflow` builds and then
updates with the sub-workflow stack top (`options.update(stack[-1])`): every
key present in the top enters the kwargs passed on — including any
activity-only key the top happens to carry. Kept as a `Frame` so that such
stray keys stay observable. -/
def effSubR (top : Frame) (cp : SCallParams) : Frame :=
  mergeFrame
    { workflow_duration := some (intOrNone cp.workflow_duration)
      decision_duration := some (intOrNone cp.decision_duration)
      task_list := some (strOrNone cp.task_list)
      retry := some (max cp.retry 0)
      delay := some (max cp.delay 0)
      error_handling := some cp.error_handling }
    top

/-- An `options(workflow_duration=10, heartbeat=7)` block. -/
def pWD : BlockParams := { workflow_duration := some (some 10), heartbeat := some (some 7) }

end FlowyRuntime

namespace Pyswf

/-- The pyswf `ActivityOptions` named tuple (heartbeat, schedule_to_close,
schedule_to_start, start_to_close, task_list), each field optional. -/
structure ActivityOptions where
  heartbeat : Option Int
  schedule_to_close : Option Int
  schedule_to_start : Option Int
  start_to_close : Option Int
  task_list : Option String
  deriving DecidableEq

/-- `ActivityOptions.update_with(other)`: fieldwise, `other`'s value when it
is not `None`, otherwise `self`'s. -/
def ActivityOptions.updateWith (self other : ActivityOptions) : ActivityOptions where
  heartbeat := other.heartbeat.orElse fun _ => self.heartbeat
  schedule_to_close := other.schedule_to_close.orElse fun _ => self.schedule_to_close
  schedule_to_start := other.schedule_to_start.orElse fun _ => self.schedule_to_start
  start_to_close := other.start_to_close.orElse fun _ => self.start_to_close
  task_list := other.task_list.orElse fun _ => self.task_list

/-- The all-`None` `ActivityOptions` the `Workflow.__init__` stack starts
from. -/
def aoEmpty : ActivityOptions := ⟨none, none, none, none, none⟩

/-- The two stacks `Workflow.options` manipulates: `_options_stack` and
`_error_handling_stack` (heads are the Python `[-1]` tops). -/
structure OptState where
  optionsStack : List ActivityOptions
  ehStack : List Bool
  deriving DecidableEq

/-- The stacks as `Workflow.__init__` builds them. -/
def optInit : OptState := ⟨[aoEmpty], [false]⟩

/-- `contextmanager` semantics of `Workflow.options` around a block body:
push onto `_error_handling_stack` when `error_handling` was passed, push the
merged options frame, run the body (returning the mutated stacks and `true`,
or the stacks at the point an exception unwound and `false`), and pop — in
source order, options first, then the error-handling flag — only on a normal
exit: the generator has no `try/finally`, so an exception thrown into it at
the `yield` (such as the `_SyncNeeded` unwind) skips both pops. -/
def workflowOptionsBlock (st : OptState) (eh : Option Bool)
    (opts : ActivityOptions) (body : OptState → OptState × Bool) :
    OptState × Bool :=
  let st1 : OptState :=
    match eh with
    | some b => { st with ehStack := b :: st.ehStack }
    | none => st
  let top := st1.optionsStack.headD aoEmpty
  let st2 : OptState := { st1 with optionsStack := top.updateWith opts :: st1.optionsStack }
  let r := body st2
  if r.2 then
    let st3 : OptState := { r.1 with optionsStack := r.1.optionsStack.tail }
    (match eh with
     | some _ => { st3 with ehStack := st3.ehStack.tail }
     | none => st3,
     true)
  else r

/-- A two-site workflow used to witness call-id stability: a first call whose
result is dereferenced, then a call consuming it. -/
def pw : List Site := [⟨"f", "1", [], [], true⟩, ⟨"g", "1", [.ref 0], [], false⟩]

end Pyswf

namespace FlowySched

/-- An `options(error_handling=True)` block. -/
def pEH : BlockParams := { error_handling := some true }

/-- A block body that immediately unwinds with an exception (for instance the
`_SyncNeeded` raised by dereferencing a `Placeholder` inside the block). -/
def bodyRaise : OS → OS × Bool := fun s => (s, false)

/-- A block body that returns normally without touching the stacks. -/
def bodyOk : OS → OS × Bool := fun s => (s, true)

/-- Innermost-wins fold of optional values, seeded with `i`: each later
defined value overrides the accumulator. -/
def optFold (i : Option α) (l : List (Option α)) : Option α :=
  l.foldl (fun a o => o.orElse fun _ => a) i

/-- The call-site parameter record with every keyword left at its Python
default. -/
def defaultCallParams : CallParams := {}

end FlowySched

namespace FlowyClient

/-- The key list of a Python dict modelled as an association list. -/
def keysOf (d : List (Nat × β)) : List Nat := d.map Prod.fst

/-- Dict lookup (`d[k]` / `d.get(k)`): the value at the first matching key. -/
def lookupD : List (Nat × β) → Nat → Option β
  | [], _ => none
  | p :: rest, k => if p.1 = k then some p.2 else lookupD rest k

/-- Dict assignment `d[k] = v`: replace in place when the key exists,
append otherwise (Python dicts preserve insertion order). -/
def dictSet : List (Nat × β) → Nat → β → List (Nat × β)
  | [], k, v => [(k, v)]
  | p :: rest, k, v => if p.1 = k then (k, v) :: rest else p :: dictSet rest k v

/-- `d.setdefault(k, v)`: insert only when the key is absent. -/
def setdefault (d : List (Nat × β)) (k : Nat) (v : β) : List (Nat × β) :=
  if (lookupD d k).isSome then d else d ++ [(k, v)]

/-- `s.add(c)` on a Python set modelled as a duplicate-free list. -/
def setAdd (s : List Nat) (c : Nat) : List Nat :=
  if c ∈ s then s else s ++ [c]

/-- The projected state a `WorkflowResponse` accumulates:
`_event_to_call_id`, `_retries`, `_scheduled`, `_results`, `_timed_out`,
`_with_errors` and `input`. -/
structure WfState where
  event_to_call_id : List (Nat × Nat)
  retries : List (Nat × Int)
  scheduled : List Nat
  results : List (Nat × String)
  timed_out : List Nat
  with_errors : List (Nat × String)
  input : Option String
  deriving DecidableEq

/-- The empty state `WorkflowResponse.__init__` starts from. -/
def emptyWfState : WfState := ⟨[], [], [], [], [], [], none⟩

/-- A history event, carrying the attributes the projector reads. The
`activityId` of a `Scheduled` event is kept as the already-parsed integer
call id. -/
inductive Event where
  | activityTaskScheduled (eventId : Nat) (activityId : Nat)
  | activityTaskCompleted (scheduledEventId : Nat) (result : String)
  | activityTaskFailed (scheduledEventId : Nat) (reason : String)
  | activityTaskTimedOut (scheduledEventId : Nat)
  | workflowExecutionStarted (input : String)
  | otherEvent
  deriving DecidableEq

/-- One event applied to the state, as the `_EventType` handlers do it;
`none` models an uncaught `KeyError` — from a dict subscript on a missing
key or `set.remove` on a missing element. `_ActivityTaskScheduled` records
the event-to-call mapping, adds to `scheduled` and discards a `timed_out`
mark; `_ActivityTaskCompleted` moves the call from `scheduled` to `results`;
`_ActivityTaskFailed` only records the reason (the call stays in
`scheduled`); `_ActivityTaskTimedOut` moves the call from `scheduled` to
`timed_out` and decrements its `_retries` entry; unknown event types are
ignored. -/
def stepEvent (s : WfState) : Event → Option WfState
  | .activityTaskScheduled eid c =>
    some { s with
      event_to_call_id := dictSet s.event_to_call_id eid c
      scheduled := setAdd s.scheduled c
      timed_out := if c ∈ s.timed_out then s.timed_out.erase c else s.timed_out }
  | .activityTaskCompleted eid r =>
    match lookupD s.event_to_call_id eid with
    | none => none
    | some c =>
      if c ∈ s.scheduled then
        some { s with
          scheduled := s.scheduled.erase c
          results := dictSet s.results c r }
      else none
  | .activityTaskFailed eid reason =>
    match lookupD s.event_to_call_id eid with
    | none => none
    | some c => some { s with with_errors := dictSet s.with_errors c reason }
  | .activityTaskTimedOut eid =>
    match lookupD s.event_to_call_id eid with
    | none => none
    | some c =>
      if c ∈ s.scheduled then
        match lookupD s.retries c with
        | none => none
        | some v =>
          some { s with
            scheduled := s.scheduled.erase c
            timed_out := setAdd s.timed_out c
            retries := dictSet s.retries c (v - 1) }
      else none
  | .workflowExecutionStarted inp => some { s with input := some inp }
  | .otherEvent => some s

/-- The forward walk over the new events of a decision turn. -/
def foldEvents (s : WfState) : List Event → Option WfState
  | [] => some s
  | e :: es =>
    match stepEvent s e with
    | none => none
    | some s' => foldEvents s' es

/-- The per-event condition claim C10 states: completion-type events carry a
`scheduledEventId` already recorded, and for `Completed`/`TimedOut` the
mapped call id is currently in `scheduled`. Nothing is required of the
`_retries` map. -/
def preClaimB (s : WfState) : Event → Bool
  | .activityTaskCompleted eid _ =>
    match lookupD s.event_to_call_id eid with
    | some c => decide (c ∈ s.scheduled)
    | none => false
  | .activityTaskFailed eid _ => (lookupD s.event_to_call_id eid).isSome
  | .activityTaskTimedOut eid =>
    match lookupD s.event_to_call_id eid with
    | some c => decide (c ∈ s.scheduled)
    | none => false
  | _ => true

/-- Claim C10's condition threaded along the fold (continuing from the
unchanged state where a step fails, since the claim presumes no step does). -/
def wfClaimB (s : WfState) : List Event → Bool
  | [] => true
  | e :: es => preClaimB s e && wfClaimB ((stepEvent s e).getD s) es

/-- The strengthened per-event condition under which the fold is total: claim
C10's conditions plus, for `TimedOut`, an existing `_retries` entry for the
mapped call id (the handler executes `self._retries[call_id] -= 1`). -/
def preTotalB (s : WfState) : Event → Bool
  | .activityTaskTimedOut eid =>
    match lookupD s.event_to_call_id eid with
    | some c => decide (c ∈ s.scheduled) && (lookupD s.retries c).isSome
    | none => false
  | e => preClaimB s e

/-- The strengthened condition threaded along the fold. -/
def wfTotalB (s : WfState) : List Event → Bool
  | [] => true
  | e :: es => preTotalB s e && wfTotalB ((stepEvent s e).getD s) es

/-- The condition for the disjointness invariant: total-fold conditions plus
"no `Scheduled` event re-schedules a call id that already has a result". -/
def pre2B (s : WfState) : Event → Bool
  | .activityTaskScheduled _ c => decide (c ∉ keysOf s.results)
  | e => preTotalB s e

/-- The disjointness condition threaded along the fold. -/
def wf2B (s : WfState) : List Event → Bool
  | [] => true
  | e :: es => pre2B s e && wf2B ((stepEvent s e).getD s) es

/-- The projector invariant behind claim C2, restricted to the three
collections the handlers actually keep apart: `scheduled`, the keys of
`results`, and `timed_out` are duplicate-free and pairwise disjoint.
(`with_errors` is deliberately absent: `_ActivityTaskFailed` leaves the call
in `scheduled`.) -/
def DisjInv (s : WfState) : Prop :=
  s.scheduled.Nodup ∧ s.timed_out.Nodup
    ∧ (∀ c ∈ s.scheduled, c ∉ keysOf s.results)
    ∧ (∀ c ∈ s.scheduled, c ∉ s.timed_out)
    ∧ (∀ c ∈ keysOf s.results, c ∉ s.timed_out)

instance (s : WfState) : Decidable (DisjInv s) := by
  unfold DisjInv; infer_instance

/-- One decider-side operation interleaved with history events:
`WorkflowResponse.queue_activity` (which runs
`self._retries.setdefault(call_id, retries + 1)`) or the application of one
new event. -/
inductive DecOp where
  | queueAct (callId : Nat) (retry : Int)
  | ev (e : Event)
  deriving DecidableEq

/-- Apply one operation to the projected state. -/
def applyOp (s : WfState) : DecOp → Option WfState
  | .queueAct c k => some { s with retries := setdefault s.retries c (k + 1) }
  | .ev e => stepEvent s e

/-- Whether this operation, applied in state `s`, decrements the `_retries`
entry of call `c`: exactly an `ActivityTaskTimedOut` event whose
`scheduledEventId` currently maps to `c`. -/
def timeoutHit (s : WfState) (op : DecOp) (c : Nat) : Nat :=
  match op with
  | .ev (.activityTaskTimedOut eid) =>
    if lookupD s.event_to_call_id eid = some c then 1 else 0
  | _ => 0

/-- Fold a list of operations, counting how many of them decremented the
`_retries` entry of call `c`. -/
def foldOpsCount (c : Nat) : WfState → List DecOp → Option (WfState × Nat)
  | s, [] => some (s, 0)
  | s, op :: rest =>
    match applyOp s op with
    | none => none
    | some s' =>
      match foldOpsCount c s' rest with
      | none => none
      | some (s'', n) => some (s'', timeoutHit s op c + n)

/-- The JSON document `_serialize_context` produces: `json.dumps` flattens
the integer keys of the four maps to their decimal strings — modelled as the
base-10 digit list — and writes the two sets out as lists. -/
structure CtxDoc where
  event_to_call_id : List (List Nat × Nat)
  retries : List (List Nat × Int)
  scheduled : List Nat
  results : List (List Nat × String)
  timed_out : List Nat
  with_errors : List (List Nat × String)
  input : Option String
  deriving DecidableEq

/-- Little-endian base-10 digits with an explicit fuel bound (the number
itself suffices): the digit string `str(k)` writes for a non-negative
integer key, digit by digit. -/
def decDigitsAux : Nat → Nat → List Nat
  | 0, _ => []
  | fuel + 1, n => if n = 0 then [] else n % 10 :: decDigitsAux fuel (n / 10)

/-- The decimal-digit string `json.dumps` writes for the integer key `n`. -/
def decDigits (n : Nat) : List Nat := decDigitsAux n n

/-- `int(key)`: read a decimal digit string back as the integer it spells. -/
def ofDecDigits : List Nat → Nat
  | [] => 0
  | d :: rest => d + 10 * ofDecDigits rest

/-- The key stringification `json.dumps` applies to an integer-keyed dict. -/
def strKeys (d : List (Nat × β)) : List (List Nat × β) :=
  d.map fun p => (decDigits p.1, p.2)

/-- `WorkflowResponse._fix_keys`: re-coerce each JSON string key back to the
integer it spells (`int(key)`). -/
def fixKeys (d : List (List Nat × β)) : List (Nat × β) :=
  d.map fun p => (ofDecDigits p.1, p.2)

/-- `set(xs)` built from a list: fold `add` over the elements, keeping the
first occurrence of each. -/
def pySetOfList (l : List Nat) : List Nat := l.foldl setAdd []

/-- `WorkflowResponse._serialize_context`: the `json.dumps` of the seven
state components. -/
def serializeContext (s : WfState) : CtxDoc where
  event_to_call_id := strKeys s.event_to_call_id
  retries := strKeys s.retries
  scheduled := s.scheduled
  results := strKeys s.results
  timed_out := s.timed_out
  with_errors := strKeys s.with_errors
  input := s.input

/-- `WorkflowResponse._restore_context` on a decoded document: `_fix_keys`
on the four maps, `set(...)` on the two lists, `input` as is. -/
def restoreContext (d : CtxDoc) : WfState where
  event_to_call_id := fixKeys d.event_to_call_id
  retries := fixKeys d.retries
  scheduled := pySetOfList d.scheduled
  results := fixKeys d.results
  timed_out := pySetOfList d.timed_out
  with_errors := fixKeys d.with_errors
  input := d.input

/-- The history refuting C2's disjointness: a call is scheduled, then fails. -/
def l2 : List Event :=
  [.activityTaskScheduled 1 0, .activityTaskFailed 1 "boom"]

/-- The projected state after `l2`. -/
def s2 : WfState := (foldEvents emptyWfState l2).getD emptyWfState

/-- The history refuting C10's totality: a call is scheduled and times out
without any `queue_activity` (so without a `_retries` entry). -/
def l10 : List Event :=
  [.activityTaskScheduled 1 0, .activityTaskTimedOut 1]

/-- A starting state holding a `_retries` entry for call 0, as restored from
a context written after `queue_activity`. -/
def s0W : WfState := ⟨[], [(0, 4)], [], [], [], [], none⟩

/-- A well-formed history for the totality witness: schedule, time out,
re-schedule, complete. -/
def lT : List Event :=
  [.activityTaskScheduled 1 0, .activityTaskTimedOut 1,
   .activityTaskScheduled 2 0, .activityTaskCompleted 2 "r"]

/-- A well-formed history for the disjointness witness. -/
def lW2 : List Event :=
  [.workflowExecutionStarted "i", .activityTaskScheduled 1 0,
   .activityTaskScheduled 2 1, .activityTaskCompleted 1 "r0",
   .activityTaskFailed 2 "e", .otherEvent]

/-- The projected state after `lW2`. -/
def sW2fin : WfState := (foldEvents emptyWfState lW2).getD emptyWfState

/-- An operation list for the retry-accounting witness: first queue of call 0
with `retry=2`, two timeouts with the re-schedule in between, and a later
re-queue that must not reset the count. -/
def opsW : List DecOp :=
  [.ev (.activityTaskScheduled 1 0), .ev (.activityTaskTimedOut 1),
   .ev (.activityTaskScheduled 2 0), .queueAct 0 7,
   .ev (.activityTaskTimedOut 2)]

/-- The state and count after the witness operations. -/
def opsWout : WfState × Nat :=
  (foldOpsCount 0 emptyWfState (.queueAct 0 2 :: opsW)).getD (emptyWfState, 0)

/-- A populated projected state for the round-trip witness. -/
def exCtxState : WfState :=
  ⟨[(3, 0), (7, 1)], [(0, 4), (1, -1)], [1], [(0, "r0")], [5], [(2, "boom")],
    some "inp"⟩

end FlowyClient

namespace Pyswf

/-- Each executed call site consumes exactly one id from `_next_call_id`, so
the ids assigned during a run are consecutive from the counter's starting
value. -/
theorem runSites_ids (ctx : Ctx) (manual : Bool) :
    ∀ (p : List Site) (st : WfObj) (outs : List MaybeResult),
      (runSites ctx manual p st outs).2.1 =
        List.range' st.currentCallId (runSites ctx manual p st outs).2.1.length := by
  intro p
  induction p with
  | nil => intro st outs; rfl
  | cons site rest ih =>
    intro st outs
    simp only [runSites]
    cases hp : proxyStep ctx manual st.currentCallId site outs with
    | error e => rfl
    | ok v =>
      obtain ⟨m, req⟩ := v
      dsimp only
      cases hd : derefExn site m with
      | some e => cases req <;> rfl
      | none =>
        dsimp only
        cases req with
        | none =>
          have h2 := ih { st with currentCallId := st.currentCallId + 1 } (outs ++ [m])
          dsimp only at h2 ⊢
          rw [List.length_cons, h2, List.length_range']
          rfl
        | some r =>
          have h2 := ih
            { st with
              currentCallId := st.currentCallId + 1
              scheduled := st.scheduled ++ [r] } (outs ++ [m])
          dsimp only at h2 ⊢
          rw [List.length_cons, h2, List.length_range']
          rfl

/-- C1 (amended). For a `resume` that starts with the call-id counter at 0 —
as after `__init__`, and after every `resume` that returns — the ids
`_next_call_id` assigns are exactly the source-order indices `0, 1, 2, …` of
the executed call sites (`List.range`), for every projected history state;
hence any two such runs over identical state and input assign identical
call ids and emit identical schedule sequences. Moreover every `resume` that
returns (normally or through the `_SyncNeeded` unwind) leaves the counter at
0 again. The counter is *not* re-zeroed when `resume` raises — see the
counterexample. -/
theorem resume_callid_stable (p : List Site) (st : WfObj) (ctx : Ctx)
    (inp : String) (h0 : st.currentCallId = 0) :
    assignedIds p st ctx = List.range (assignedIds p st ctx).length
    ∧ ((resume p st ctx inp).2.isOk = true →
        (resume p st ctx inp).1.currentCallId = 0) := by
  constructor
  · unfold assignedIds
    rw [List.range_eq_range']
    have h := runSites_ids ctx (st.ehStack.headD false) p
      { st with scheduled := [] } []
    simpa [h0] using h
  · intro hok
    unfold resume at hok ⊢
    dsimp only at hok ⊢
    cases hr : (runSites ctx (st.ehStack.headD false) p
        { st with scheduled := [] } []).2.2 with
    | none => rfl
    | some e =>
      rw [hr] at hok
      cases e with
      | syncNeeded => rfl
      | unhandled m => exact Bool.noConfusion hok
      | activityError m => exact Bool.noConfusion hok
      | typeError => exact Bool.noConfusion hok

/-- Witness for C1 at a concrete two-site workflow against the empty
history: the hypothesis is discharged at a fresh `Workflow` instance. -/
theorem resume_callid_stable_witness :
    assignedIds pw wf0 ctxEmpty = List.range (assignedIds pw wf0 ctxEmpty).length
    ∧ ((resume pw wf0 ctxEmpty "i").2.isOk = true →
        (resume pw wf0 ctxEmpty "i").1.currentCallId = 0) :=
  resume_callid_stable pw wf0 ctxEmpty "i" rfl

/-- C1 counterexample. A `resume` of the one-site workflow `p1` against a
history in which call 0 failed (error handling off) raises
`_UnhandledActivityError` and skips the `self._current_call_id = 0` reset,
leaving the counter at 1. A later `resume` of that same `Workflow` instance
then disagrees with a fresh instance on identical projected state and
identical input: it emits `(1, f, 1, …)` where the fresh run emits
`(0, f, 1, …)` — two runs of the replay with identical history state and
input whose emitted schedule sequences differ, refuting the claim that the
counter restarts at 0 on every resume. -/
theorem resume_callid_counterexample :
    stA.currentCallId = 1
    ∧ (resume p1 stA ctxEmpty "in").2 =
        .ok [⟨1, "f", "1", "args:[];kwargs:[]"⟩]
    ∧ (resume p1 wf0 ctxEmpty "in").2 =
        .ok [⟨0, "f", "1", "args:[];kwargs:[]"⟩]
    ∧ (resume p1 stA ctxEmpty "in").2 ≠ (resume p1 wf0 ctxEmpty "in").2 := by
  refine ⟨by decide, by decide, by decide, by decide⟩

/-- C3 (code bug evaluation). A `Placeholder` passed as a keyword argument is
invisible to `has_placeholders` — the scanned list `list(args) +
list(kwargs.items())` holds it inside a `(key, value)` tuple, which fails the
`isinstance(r, MaybeResult)` filter — so the call is not blocked: the proxy
falls through to `serialize_activity_input`, where `json.dumps` raises
`TypeError` on the `MaybeResult` instance instead of returning a fresh
placeholder. (`flowy/scheduler.py` scans `kwargs.values()` and blocks.) -/
theorem kwargs_placeholder_not_blocked :
    hasPlaceholders [] [("x", .mr .placeholder)] = false
    ∧ proxyStep ctxEmpty false 0 site3 [] = .error .typeError := by
  refine ⟨by decide, by decide⟩

/-- C4 counterexample. Calling an activity with the two upstream errors
`Error("a")` and `Error("b")` in pyswf does not fail the workflow with the
composed reason `"a\nb"`: `get_args_error` returns only the first reason,
and the proxy raises `_UnhandledActivityError` with the prefixed message
`"Error when calling activity: a"` — and it does so whether or not manual
error handling is on. -/
theorem args_error_compose_counterexample :
    proxyStep ctxEmpty false 0 site4 [] =
      .error (.unhandled "Error when calling activity: a")
    ∧ proxyStep ctxEmpty true 0 site4 [] =
      .error (.unhandled "Error when calling activity: a")
    ∧ ("Error when calling activity: a" : String) ≠ "a" ++ "\n" ++ "b" := by
  refine ⟨by decide, by decide, by decide⟩

end Pyswf

namespace FlowySched

/-- C4 (amended). In `flowy`'s `ArgsDependencyScheduler`, a remote call with
no `Placeholder` argument but at least one `Error` argument composes the
newline-separated concatenation of the error reasons in argument order
(positional arguments first, then keyword values): with `error_handling` on
the call returns `Error(composed)` without scheduling or failing; with it
off the scheduler's `fail` is invoked with exactly the composed reason and
the call returns a `Placeholder`, again scheduling nothing. (pyswf's
`ActivityProxy` behaves differently — see the counterexample.) -/
theorem args_error_composition (batch : List (Nat × String)) (taskId : Nat)
    (args : List RVal) (kwargs : List (String × RVal)) (eh : Bool)
    (hnp : depsInArgs (combinedArgs args kwargs) = false)
    (hne : errsInArgs (combinedArgs args kwargs) ≠ []) :
    remoteActivityADS batch taskId args kwargs eh =
      (if eh then
        RVal.error (String.intercalate "\n" (errsInArgs (combinedArgs args kwargs)))
       else RVal.placeholder,
       batch,
       if eh then none
       else some (String.intercalate "\n" (errsInArgs (combinedArgs args kwargs)))) := by
  cases hE : errsInArgs (combinedArgs args kwargs) with
  | nil => exact absurd hE hne
  | cons a l =>
    cases eh <;> simp [remoteActivityADS, argsBasedResult, hnp, hE]

/-- Witness for C4's amended statement: `Error("a")` and `Error("b")` with
error handling off fail the workflow with exactly `"a\nb"`, scheduling
nothing. -/
theorem args_error_composition_witness :
    remoteActivityADS [] 0 [RVal.error "a", RVal.error "b"] [] false =
      (RVal.placeholder, [], some ("a" ++ "\n" ++ "b")) := by
  have h := args_error_composition [] 0 [RVal.error "a", RVal.error "b"] []
    false (by decide) (by decide)
  rw [h]
  decide

/-- Folding `dict(base, **new)` merges componentwise: each field of the
result is the innermost-wins fold of that field over the frames. -/
theorem foldl_mergeFrame (fs : List Frame) (e : Frame) :
    fs.foldl mergeFrame e =
      { heartbeat := optFold e.heartbeat (fs.map Frame.heartbeat)
        schedule_to_close := optFold e.schedule_to_close (fs.map Frame.schedule_to_close)
        schedule_to_start := optFold e.schedule_to_start (fs.map Frame.schedule_to_start)
        start_to_close := optFold e.start_to_close (fs.map Frame.start_to_close)
        workflow_duration := optFold e.workflow_duration (fs.map Frame.workflow_duration)
        decision_duration := optFold e.decision_duration (fs.map Frame.decision_duration)
        task_list := optFold e.task_list (fs.map Frame.task_list)
        retry := optFold e.retry (fs.map Frame.retry)
        delay := optFold e.delay (fs.map Frame.delay)
        error_handling := optFold e.error_handling (fs.map Frame.error_handling) } := by
  induction fs generalizing e with
  | nil => rfl
  | cons f fs ih => rw [List.foldl_cons, ih]; rfl

/-- The activity-stack top after a nest of pushes is the fold of the pushed
activity frames over the starting top. -/
theorem aStack_head_pushAll (ps : List BlockParams) :
    ∀ os : OS, ((ps.foldl pushBlockSched os).aStack).headD Frame.empty =
      ps.foldl (fun t p => mergeFrame t (mkAFrame p)) (os.aStack.headD Frame.empty) := by
  induction ps with
  | nil => intro os; rfl
  | cons p ps ih => intro os; rw [List.foldl_cons, List.foldl_cons, ih]; rfl

/-- The activity-stack top after entering the blocks `ps` from a fresh
scheduler, as a fold of merges over the block frames. -/
theorem aTopAfter_eq (ps : List BlockParams) :
    aTopAfter ps = (ps.map mkAFrame).foldl mergeFrame Frame.empty := by
  unfold aTopAfter
  rw [aStack_head_pushAll, List.foldl_map]
  rfl

/-- The innermost-wins fold over mapped frames is `innermostA`. -/
theorem optFold_map (ps : List BlockParams) (g : Frame → Option α) :
    optFold none ((ps.map mkAFrame).map g) = innermostA ps g := by
  unfold optFold innermostA
  rw [List.map_map, List.foldl_map]
  rfl

/-- C7. For a remote activity call inside any nesting of `options` blocks
`ps` (outermost first), each effective option field is the value defined by
the innermost block that defines it; a field no block defines falls back to
the normalized call-site argument — and when the call site leaves every
keyword at its Python default, the effective options are exactly the
defaults: timeouts and task list unset, `retry=3`, `delay=0`,
`error_handling=False`. -/
theorem options_precedence (ps : List BlockParams) (cp : CallParams) :
    effAOpts (aTopAfter ps) cp =
      { heartbeat := (innermostA ps Frame.heartbeat).getD (posintOrNone cp.heartbeat)
        schedule_to_close :=
          (innermostA ps Frame.schedule_to_close).getD (posintOrNone cp.schedule_to_close)
        schedule_to_start :=
          (innermostA ps Frame.schedule_to_start).getD (posintOrNone cp.schedule_to_start)
        start_to_close :=
          (innermostA ps Frame.start_to_close).getD (posintOrNone cp.start_to_close)
        task_list := (innermostA ps Frame.task_list).getD (strOrNone cp.task_list)
        retry := (innermostA ps Frame.retry).getD (posint cp.retry)
        delay := (innermostA ps Frame.delay).getD (posint cp.delay)
        error_handling := (innermostA ps Frame.error_handling).getD cp.error_handling }
    ∧ effAOpts (aTopAfter []) defaultCallParams =
      ⟨none, none, none, none, none, 3, 0, false⟩ := by
  constructor
  · rw [aTopAfter_eq, foldl_mergeFrame]
    simp only [Frame.empty]
    simp only [optFold_map]
    rfl
  · rfl

/-- C8 (code bug evaluation). Entering an options block and unwinding with an
exception (the `_SyncNeeded` raised when the body dereferences a
`Placeholder`) leaves the pushed frame on both stacks in
`OptionsScheduler.options` — the stacks grow from one frame to two and stay
there — and likewise leaves both the pushed options frame and the pushed
error-handling flag behind in pyswf's `Workflow.options`; only a normal exit
restores the stacks exactly. -/
theorem options_block_not_restored_on_exn :
    (optionsBlock osInit pEH bodyRaise).1.aStack.length = 2
    ∧ (optionsBlock osInit pEH bodyRaise).1.sStack.length = 2
    ∧ osInit.aStack.length = 1 ∧ osInit.sStack.length = 1
    ∧ (optionsBlock osInit pEH bodyOk).1 = osInit
    ∧ (Pyswf.workflowOptionsBlock Pyswf.optInit (some true) Pyswf.aoEmpty
        (fun s => (s, false))).1.ehStack = [true, false]
    ∧ (Pyswf.workflowOptionsBlock Pyswf.optInit (some true) Pyswf.aoEmpty
        (fun s => (s, false))).1.optionsStack.length = 2
    ∧ (Pyswf.workflowOptionsBlock Pyswf.optInit (some true) Pyswf.aoEmpty
        (fun s => (s, true))).1 = Pyswf.optInit := by
  refine ⟨by decide, by decide, by decide, by decide, by decide, by decide,
    by decide, by decide⟩

end FlowySched

namespace FlowyRuntime

open FlowySched

/-- C9 (code bug evaluation). After entering
`options(workflow_duration=10, heartbeat=7)` in `OptionsRuntime`, a
`remote_subworkflow` call receives `workflow_duration=None` — not 10 —
because line 110 of `flowy/runtime.py` pushes `dict(top, **a_options)` onto
the sub-workflow stack, while the `s_options` dict actually carrying
`workflow_duration=10` is discarded; and the activity-only `heartbeat=7`
*does* enter the sub-workflow options through that same push. -/
theorem subworkflow_options_bug :
    (effSubR ((pushBlockRuntime osInit pWD).sStack.headD Frame.empty)
      {}).workflow_duration = some none
    ∧ (some (none : Option Int)) ≠ some (some 10)
    ∧ (effSubR ((pushBlockRuntime osInit pWD).sStack.headD Frame.empty)
      {}).heartbeat = some (some 7)
    ∧ (mkSFrameR pWD).workflow_duration = some (some 10) := by
  refine ⟨by decide, by decide, by decide, by decide⟩

end FlowyRuntime

namespace FlowyClient

/-- A lookup that succeeds still succeeds after appending entries. -/
theorem lookupD_append_left (d l : List (Nat × β)) (k : Nat) (v : β)
    (h : lookupD d k = some v) : lookupD (d ++ l) k = some v := by
  induction d with
  | nil => simp [lookupD] at h
  | cons p rest ih =>
    rw [lookupD] at h
    rw [List.cons_append, lookupD]
    by_cases hp : p.1 = k
    · rw [if_pos hp] at h ⊢; exact h
    · rw [if_neg hp] at h ⊢; exact ih h

/-- Appending a fresh key makes its lookup succeed. -/
theorem lookupD_append_single (d : List (Nat × β)) (k : Nat) (w : β)
    (h : lookupD d k = none) : lookupD (d ++ [(k, w)]) k = some w := by
  induction d with
  | nil => simp [lookupD]
  | cons p rest ih =>
    rw [lookupD] at h
    rw [List.cons_append, lookupD]
    by_cases hp : p.1 = k
    · rw [if_pos hp] at h; exact absurd h (by simp)
    · rw [if_neg hp] at h ⊢; exact ih h

/-- `setdefault` never disturbs a key that is already present. -/
theorem lookupD_setdefault_of_some (d : List (Nat × β)) (k c : Nat) (w v : β)
    (h : lookupD d c = some v) : lookupD (setdefault d k w) c = some v := by
  unfold setdefault
  split
  · exact h
  · exact lookupD_append_left d _ c v h

/-- `setdefault` on an absent key installs the default. -/
theorem lookupD_setdefault_none (d : List (Nat × β)) (k : Nat) (w : β)
    (h : lookupD d k = none) : lookupD (setdefault d k w) k = some w := by
  unfold setdefault
  rw [h]
  exact lookupD_append_single d k w h

/-- Assignment makes the assigned key's lookup return the new value. -/
theorem lookupD_dictSet_self (d : List (Nat × β)) (k : Nat) (w : β) :
    lookupD (dictSet d k w) k = some w := by
  induction d with
  | nil => simp [dictSet, lookupD]
  | cons p rest ih =>
    rw [dictSet]
    by_cases hp : p.1 = k
    · rw [if_pos hp, lookupD, if_pos rfl]
    · rw [if_neg hp, lookupD, if_neg hp]; exact ih

/-- Assignment leaves every other key's lookup unchanged. -/
theorem lookupD_dictSet_ne (d : List (Nat × β)) (k c : Nat) (w : β)
    (h : k ≠ c) : lookupD (dictSet d k w) c = lookupD d c := by
  induction d with
  | nil => simp [dictSet, lookupD, h]
  | cons p rest ih =>
    rw [dictSet]
    by_cases hp : p.1 = k
    · have hpc : p.1 ≠ c := fun hc => h (hp.symm.trans hc)
      rw [if_pos hp, lookupD, if_neg h, lookupD, if_neg hpc]
    · rw [if_neg hp, lookupD, lookupD]
      by_cases hpc : p.1 = c
      · rw [if_pos hpc, if_pos hpc]
      · rw [if_neg hpc, if_neg hpc]; exact ih

/-- The key set after an assignment is the old key set plus the assigned
key. -/
theorem mem_keysOf_dictSet (d : List (Nat × β)) (k a : Nat) (w : β) :
    a ∈ keysOf (dictSet d k w) ↔ a ∈ keysOf d ∨ a = k := by
  induction d with
  | nil => simp [dictSet, keysOf]
  | cons p rest ih =>
    rw [dictSet]
    by_cases hp : p.1 = k
    · rw [if_pos hp]
      simp only [keysOf, List.map_cons, List.mem_cons, hp]
      tauto
    · rw [if_neg hp]
      simp only [keysOf, List.map_cons, List.mem_cons] at ih ⊢
      tauto

/-- Membership after `set.add`. -/
theorem mem_setAdd (s : List Nat) (c a : Nat) :
    a ∈ setAdd s c ↔ a ∈ s ∨ a = c := by
  unfold setAdd
  by_cases hc : c ∈ s
  · rw [if_pos hc]
    constructor
    · exact Or.inl
    · rintro (h | rfl)
      · exact h
      · exact hc
  · rw [if_neg hc]
    simp

/-- `set.add` keeps the representation duplicate-free. -/
theorem nodup_setAdd (s : List Nat) (c : Nat) (h : s.Nodup) :
    (setAdd s c).Nodup := by
  unfold setAdd
  by_cases hc : c ∈ s
  · rwa [if_pos hc]
  · rw [if_neg hc]
    simp [List.nodup_append, h, hc]

/-- Membership after the guarded removal `if c in timed_out: remove(c)`. -/
theorem mem_eraseIfMem (l : List Nat) (c a : Nat) (h : l.Nodup) :
    (a ∈ (if c ∈ l then l.erase c else l)) ↔ a ∈ l ∧ a ≠ c := by
  by_cases hc : c ∈ l
  · rw [if_pos hc, List.Nodup.mem_erase_iff h]
    tauto
  · rw [if_neg hc]
    constructor
    · intro ha
      exact ⟨ha, fun hac => hc (hac ▸ ha)⟩
    · exact And.left

/-- The guarded removal keeps the representation duplicate-free. -/
theorem nodup_eraseIfMem (l : List Nat) (c : Nat) (h : l.Nodup) :
    (if c ∈ l then l.erase c else l).Nodup := by
  split
  · exact h.erase c
  · exact h

/-- Under the strengthened per-event condition, every handler runs to
completion: each map lookup and each `scheduled.remove` succeeds. -/
theorem step_total (s : WfState) (e : Event) (h : preTotalB s e = true) :
    (stepEvent s e).isSome = true := by
  cases e with
  | activityTaskScheduled eid c => rfl
  | activityTaskCompleted eid r =>
    cases hc : lookupD s.event_to_call_id eid with
    | none => simp [preTotalB, preClaimB, hc] at h
    | some c =>
      simp only [preTotalB, preClaimB, hc, decide_eq_true_eq] at h
      rw [stepEvent]
      simp only [hc]
      rw [if_pos h]
      rfl
  | activityTaskFailed eid reason =>
    cases hc : lookupD s.event_to_call_id eid with
    | none => simp [preTotalB, preClaimB, hc] at h
    | some c =>
      rw [stepEvent]
      simp only [hc]
      rfl
  | activityTaskTimedOut eid =>
    cases hc : lookupD s.event_to_call_id eid with
    | none => simp [preTotalB, hc] at h
    | some c =>
      simp only [preTotalB, hc, Bool.and_eq_true, decide_eq_true_eq,
        Option.isSome_iff_exists] at h
      obtain ⟨hmem, w, hw⟩ := h
      rw [stepEvent]
      simp only [hc]
      rw [if_pos hmem]
      simp only [hw]
      rfl
  | workflowExecutionStarted inp => rfl
  | otherEvent => rfl

/-- C10 (amended). Folding an event list is total — no handler ever raises
`KeyError` — when, at each event, the claim's conditions hold *and* each
`ActivityTaskTimedOut`'s mapped call id has an entry in `_retries`: the
retry-decrement `self._retries[call_id] -= 1` is a map lookup the claim's
stated conditions do not cover (see the counterexample). -/
theorem projector_total (s : WfState) (es : List Event)
    (h : wfTotalB s es = true) : (foldEvents s es).isSome = true := by
  induction es generalizing s with
  | nil => rfl
  | cons e es ih =>
    rw [wfTotalB, Bool.and_eq_true] at h
    obtain ⟨hpre, hrest⟩ := h
    have htot := step_total s e hpre
    cases hs' : stepEvent s e with
    | none => rw [hs'] at htot; exact absurd htot (by simp)
    | some s1 =>
      rw [foldEvents]
      simp only [hs']
      rw [hs'] at hrest
      exact ih s1 hrest

/-- Witness for C10's amended statement: from a state whose context carries a
`_retries` entry for call 0, a schedule / timeout / reschedule / complete
history folds without error. -/
theorem projector_total_witness : (foldEvents s0W lT).isSome = true :=
  projector_total s0W lT (by decide)

/-- C10 counterexample. The history "call 0 scheduled (event 1), then timed
out" satisfies every condition the claim states — the `scheduledEventId` is
recorded and the mapped call id is in `scheduled` — yet the fold errors: the
`_ActivityTaskTimedOut` handler's `self._retries[0] -= 1` raises `KeyError`
because no `queue_activity` ever created the entry. -/
theorem timeout_retries_keyerror_counterexample :
    wfClaimB emptyWfState l10 = true ∧ foldEvents emptyWfState l10 = none := by
  refine ⟨by decide, by decide⟩

/-- One step preserves the disjointness invariant under the strengthened
condition. -/
theorem step_disj (s s' : WfState) (e : Event) (hpre : pre2B s e = true)
    (hstep : stepEvent s e = some s') (hinv : DisjInv s) : DisjInv s' := by
  obtain ⟨hns, hnt, hsr, hst, hrt⟩ := hinv
  cases e with
  | activityTaskScheduled eid c =>
    simp only [pre2B, decide_eq_true_eq] at hpre
    rw [stepEvent] at hstep
    injection hstep with hstep
    subst hstep
    refine ⟨nodup_setAdd _ _ hns, nodup_eraseIfMem _ _ hnt, ?_, ?_, ?_⟩
    · intro a ha
      rw [mem_setAdd] at ha
      rcases ha with ha | rfl
      · exact hsr a ha
      · exact hpre
    · intro a ha hmem
      rw [mem_setAdd] at ha
      rw [mem_eraseIfMem _ _ _ hnt] at hmem
      rcases ha with ha | rfl
      · exact hst a ha hmem.1
      · exact hmem.2 rfl
    · intro a ha hmem
      rw [mem_eraseIfMem _ _ _ hnt] at hmem
      exact hrt a ha hmem.1
  | activityTaskCompleted eid r =>
    rw [stepEvent] at hstep
    cases hc : lookupD s.event_to_call_id eid with
    | none => rw [hc] at hstep; exact absurd hstep (by simp)
    | some c =>
      simp only [hc] at hstep
      by_cases hm : c ∈ s.scheduled
      · rw [if_pos hm] at hstep
        injection hstep with hstep
        subst hstep
        refine ⟨hns.erase _, hnt, ?_, ?_, ?_⟩
        · intro a ha hk
          rw [List.Nodup.mem_erase_iff hns] at ha
          rw [mem_keysOf_dictSet] at hk
          rcases hk with hk | rfl
          · exact hsr a ha.2 hk
          · exact ha.1 rfl
        · intro a ha
          rw [List.Nodup.mem_erase_iff hns] at ha
          exact hst a ha.2
        · intro a ha
          rw [mem_keysOf_dictSet] at ha
          rcases ha with ha | rfl
          · exact hrt a ha
          · exact hst _ hm
      · rw [if_neg hm] at hstep
        exact absurd hstep (by simp)
  | activityTaskFailed eid reason =>
    rw [stepEvent] at hstep
    cases hc : lookupD s.event_to_call_id eid with
    | none => rw [hc] at hstep; exact absurd hstep (by simp)
    | some c =>
      simp only [hc] at hstep
      injection hstep with hstep
      subst hstep
      exact ⟨hns, hnt, hsr, hst, hrt⟩
  | activityTaskTimedOut eid =>
    rw [stepEvent] at hstep
    cases hc : lookupD s.event_to_call_id eid with
    | none => rw [hc] at hstep; exact absurd hstep (by simp)
    | some c =>
      simp only [hc] at hstep
      by_cases hm : c ∈ s.scheduled
      · rw [if_pos hm] at hstep
        cases hw : lookupD s.retries c with
        | none => rw [hw] at hstep; exact absurd hstep (by simp)
        | some v =>
          simp only [hw] at hstep
          injection hstep with hstep
          subst hstep
          refine ⟨hns.erase _, nodup_setAdd _ _ hnt, ?_, ?_, ?_⟩
          · intro a ha
            rw [List.Nodup.mem_erase_iff hns] at ha
            exact hsr a ha.2
          · intro a ha hmem
            rw [List.Nodup.mem_erase_iff hns] at ha
            rw [mem_setAdd] at hmem
            rcases hmem with hmem | rfl
            · exact hst a ha.2 hmem
            · exact ha.1 rfl
          · intro a ha hmem
            rw [mem_setAdd] at hmem
            rcases hmem with hmem | rfl
            · exact hrt a ha hmem
            · exact absurd ha (hsr a hm)
      · rw [if_neg hm] at hstep
        exact absurd hstep (by simp)
  | workflowExecutionStarted inp =>
    rw [stepEvent] at hstep
    injection hstep with hstep
    subst hstep
    exact ⟨hns, hnt, hsr, hst, hrt⟩
  | otherEvent =>
    rw [stepEvent] at hstep
    injection hstep with hstep
    subst hstep
    exact ⟨hns, hnt, hsr, hst, hrt⟩

/-- C2 (amended). Over histories satisfying the per-event conditions — each
completion-type event's `scheduledEventId` recorded, the mapped call in
`scheduled` (with a `_retries` entry for timeouts), and no re-scheduling of
an already-completed call — the fold preserves pairwise disjointness of
`scheduled`, the keys of `results`, and `timed_out`. The `with_errors` map
is excluded: `_ActivityTaskFailed` leaves the failed call in `scheduled`
(see the counterexample), so `with_errors` can overlap the other
collections. -/
theorem projector_disjoint (s : WfState) (es : List Event) (s' : WfState)
    (hwf : wf2B s es = true) (hfold : foldEvents s es = some s')
    (hinv : DisjInv s) : DisjInv s' := by
  induction es generalizing s with
  | nil =>
    rw [foldEvents] at hfold
    injection hfold with h
    subst h
    exact hinv
  | cons e es ih =>
    rw [wf2B, Bool.and_eq_true] at hwf
    obtain ⟨hpre, hrest⟩ := hwf
    rw [foldEvents] at hfold
    cases hs : stepEvent s e with
    | none => rw [hs] at hfold; exact absurd hfold (by simp)
    | some s1 =>
      simp only [hs] at hfold hrest
      exact ih s1 hrest hfold (step_disj s s1 e hpre hs hinv)

/-- Witness for C2's amended statement at a concrete six-event history. -/
theorem projector_disjoint_witness : DisjInv sW2fin :=
  projector_disjoint emptyWfState lW2 sW2fin (by decide) (by decide) (by decide)

/-- C2 counterexample. The two-event history "call 0 scheduled (event 1),
then `ActivityTaskFailed`" is well-formed by the claim's own conditions, yet
after the fold call 0 is simultaneously in `scheduled` and among the keys of
`with_errors`: `_ActivityTaskFailed` records the reason without removing the
call from `scheduled`, refuting the claimed pairwise disjointness. -/
theorem failed_overlap_counterexample :
    wfClaimB emptyWfState l2 = true
    ∧ wf2B emptyWfState l2 = true
    ∧ (foldEvents emptyWfState l2).isSome = true
    ∧ 0 ∈ s2.scheduled ∧ 0 ∈ keysOf s2.with_errors := by
  refine ⟨by decide, by decide, by decide, by decide, by decide⟩

end FlowyClient

namespace FlowyClient

/-- Along any successfully applied operation sequence, the `_retries` entry
of call `c` drops by exactly the number of `ActivityTaskTimedOut` events
resolving to `c`: `queue_activity`'s `setdefault` never overwrites it, the
other handlers never touch it, and each matching timeout decrements it by
one. -/
theorem retries_sub (c : Nat) :
    ∀ (ops : List DecOp) (s : WfState) (v : Int) (s' : WfState) (n : Nat),
      lookupD s.retries c = some v → foldOpsCount c s ops = some (s', n) →
      lookupD s'.retries c = some (v - n) := by
  intro ops
  induction ops with
  | nil =>
    intro s v s' n hv hf
    rw [foldOpsCount] at hf
    simp only [Option.some_inj, Prod.mk.injEq] at hf
    obtain ⟨rfl, rfl⟩ := hf
    simpa using hv
  | cons op rest ih =>
    intro s v s' n hv hf
    rw [foldOpsCount] at hf
    cases ha : applyOp s op with
    | none => rw [ha] at hf; exact absurd hf (by simp)
    | some s1 =>
      simp only [ha] at hf
      cases hr : foldOpsCount c s1 rest with
      | none => rw [hr] at hf; exact absurd hf (by simp)
      | some pr =>
        obtain ⟨s2, n2⟩ := pr
        simp only [hr, Option.some_inj, Prod.mk.injEq] at hf
        obtain ⟨rfl, rfl⟩ := hf
        cases op with
        | queueAct cq k =>
          rw [applyOp] at ha
          injection ha with ha
          subst ha
          have hv1 : lookupD (setdefault s.retries cq (k + 1)) c = some v :=
            lookupD_setdefault_of_some _ _ _ _ _ hv
          have hrec := ih _ v _ n2 hv1 hr
          simpa [timeoutHit] using hrec
        | ev e =>
          cases e with
          | activityTaskScheduled eid cs =>
            rw [applyOp, stepEvent] at ha
            injection ha with ha
            subst ha
            have hrec := ih _ v _ n2 (by exact hv) hr
            simpa [timeoutHit] using hrec
          | activityTaskCompleted eid r =>
            rw [applyOp, stepEvent] at ha
            cases hc : lookupD s.event_to_call_id eid with
            | none => rw [hc] at ha; exact absurd ha (by simp)
            | some cc =>
              simp only [hc] at ha
              by_cases hm : cc ∈ s.scheduled
              · rw [if_pos hm] at ha
                injection ha with ha
                subst ha
                have hrec := ih _ v _ n2 (by exact hv) hr
                simpa [timeoutHit] using hrec
              · rw [if_neg hm] at ha; exact absurd ha (by simp)
          | activityTaskFailed eid reason =>
            rw [applyOp, stepEvent] at ha
            cases hc : lookupD s.event_to_call_id eid with
            | none => rw [hc] at ha; exact absurd ha (by simp)
            | some cc =>
              simp only [hc] at ha
              injection ha with ha
              subst ha
              have hrec := ih _ v _ n2 (by exact hv) hr
              simpa [timeoutHit] using hrec
          | activityTaskTimedOut eid =>
            rw [applyOp, stepEvent] at ha
            cases hc : lookupD s.event_to_call_id eid with
            | none => rw [hc] at ha; exact absurd ha (by simp)
            | some cc =>
              simp only [hc] at ha
              by_cases hm : cc ∈ s.scheduled
              · rw [if_pos hm] at ha
                cases hw : lookupD s.retries cc with
                | none => rw [hw] at ha; exact absurd ha (by simp)
                | some w =>
                  simp only [hw] at ha
                  injection ha with ha
                  subst ha
                  by_cases hcc : cc = c
                  · subst hcc
                    have hvw : v = w := by
                      rw [hv] at hw
                      exact Option.some_inj.mp hw
                    have hv1 : lookupD (dictSet s.retries cc (w - 1)) cc =
                        some (w - 1) := lookupD_dictSet_self _ _ _
                    have hrec := ih _ (w - 1) _ n2 hv1 hr
                    rw [hrec, hvw]
                    simp only [timeoutHit, hc, if_pos rfl, Option.some_inj]
                    push_cast
                    ring
                  · have hv1 : lookupD (dictSet s.retries cc (w - 1)) c =
                        some v := by
                      rw [lookupD_dictSet_ne _ _ _ _ hcc]
                      exact hv
                    have hrec := ih _ v _ n2 hv1 hr
                    have hhit : timeoutHit s (.ev (.activityTaskTimedOut eid)) c = 0 := by
                      simp [timeoutHit, hc, hcc]
                    rw [hrec, hhit]
                    simp
              · rw [if_neg hm] at ha; exact absurd ha (by simp)
          | workflowExecutionStarted inp =>
            rw [applyOp, stepEvent] at ha
            injection ha with ha
            subst ha
            have hrec := ih _ v _ n2 (by exact hv) hr
            simpa [timeoutHit] using hrec
          | otherEvent =>
            rw [applyOp, stepEvent] at ha
            injection ha with ha
            subst ha
            have hrec := ih _ v _ n2 (by exact hv) hr
            simpa [timeoutHit] using hrec

/-- C5. A call id first queued by `queue_activity` with configured
`retry = k` has its `_retries` entry initialized to `k + 1` by
`setdefault` — and only then: later `queue_activity` calls for the same id
leave it alone — and after any continuation in which `m`
`ActivityTaskTimedOut` events resolve to that call id, the entry equals
`k + 1 - m`. -/
theorem retry_accounting (s : WfState) (c : Nat) (k : Int) (ops : List DecOp)
    (s' : WfState) (m : Nat)
    (hinit : lookupD s.retries c = none)
    (hfold : foldOpsCount c s (DecOp.queueAct c k :: ops) = some (s', m)) :
    lookupD s'.retries c = some (k + 1 - m) := by
  rw [foldOpsCount] at hfold
  simp only [applyOp] at hfold
  cases hr : foldOpsCount c { s with retries := setdefault s.retries c (k + 1) } ops with
  | none => rw [hr] at hfold; exact absurd hfold (by simp)
  | some pr =>
    obtain ⟨s2, n2⟩ := pr
    simp only [hr, timeoutHit, Option.some_inj, Prod.mk.injEq] at hfold
    obtain ⟨rfl, rfl⟩ := hfold
    have hv1 : lookupD (setdefault s.retries c (k + 1)) c = some (k + 1) :=
      lookupD_setdefault_none _ _ _ hinit
    have hrec := retries_sub c ops _ (k + 1) _ n2 hv1 hr
    simpa using hrec

/-- Witness for C5: call 0 queued with `retry=2`, timed out twice with the
reschedule in between and re-queued with a different `retry` along the way,
ends with `retries_left = 2 + 1 - 2 = 1`. -/
theorem retry_accounting_witness :
    lookupD opsWout.1.retries 0 = some ((2 : Int) + 1 - (2 : Nat)) := by
  have h := retry_accounting emptyWfState 0 2 opsW opsWout.1 2 (by decide) (by decide)
  exact h

end FlowyClient

namespace FlowyClient

/-- Reading back the fuelled digit string recovers the number, for
sufficient fuel. -/
theorem ofDecDigits_decDigitsAux (fuel : Nat) :
    ∀ n : Nat, n ≤ fuel → ofDecDigits (decDigitsAux fuel n) = n := by
  induction fuel with
  | zero =>
    intro n h
    have hn : n = 0 := Nat.le_zero.mp h
    subst hn
    rfl
  | succ fuel ih =>
    intro n h
    rw [decDigitsAux]
    by_cases hn : n = 0
    · rw [if_pos hn, hn]; rfl
    · rw [if_neg hn, ofDecDigits]
      have hdiv : n / 10 ≤ fuel := by
        have h1 : n / 10 < n := Nat.div_lt_self (Nat.pos_of_ne_zero hn) (by norm_num)
        omega
      rw [ih _ hdiv]
      exact Nat.mod_add_div n 10

/-- `int(str(n)) = n`: the decimal key coercion round-trips. -/
theorem ofDecDigits_decDigits (n : Nat) : ofDecDigits (decDigits n) = n :=
  ofDecDigits_decDigitsAux n n le_rfl

/-- `_fix_keys` undoes the key stringification of `json.dumps`. -/
theorem fixKeys_strKeys (d : List (Nat × β)) : fixKeys (strKeys d) = d := by
  induction d with
  | nil => rfl
  | cons p rest ih =>
    show (ofDecDigits (decDigits p.1), p.2) :: fixKeys (strKeys rest) = p :: rest
    rw [ofDecDigits_decDigits, ih]

/-- Folding `add` over a list disjoint from the duplicate-free accumulator
appends it unchanged. -/
theorem foldl_setAdd_append (l : List Nat) :
    ∀ acc : List Nat, (acc ++ l).Nodup → l.foldl setAdd acc = acc ++ l := by
  induction l with
  | nil => intro acc _; simp
  | cons x l ih =>
    intro acc h
    rw [List.foldl_cons]
    have hx : x ∉ acc := by
      rw [List.nodup_append] at h
      exact fun hxa => h.2.2 hxa (List.mem_cons_self x l)
    rw [setAdd, if_neg hx]
    have h2 : ((acc ++ [x]) ++ l).Nodup := by
      rw [List.append_assoc]
      exact h
    rw [ih (acc ++ [x]) h2, List.append_assoc]
    rfl

/-- Rebuilding a `set` from a duplicate-free list reproduces the list. -/
theorem pySetOfList_nodup (l : List Nat) (h : l.Nodup) : pySetOfList l = l := by
  have hf := foldl_setAdd_append l [] (by simpa using h)
  simpa [pySetOfList] using hf

/-- Decoding a serialized context restores the state exactly: the four maps
through the key round-trip, the two sets because their serialized lists are
duplicate-free. -/
theorem restore_serialize (s : WfState) (h1 : s.scheduled.Nodup)
    (h2 : s.timed_out.Nodup) : restoreContext (serializeContext s) = s := by
  obtain ⟨e, r, sc, res, t, w, i⟩ := s
  simp only [serializeContext, restoreContext]
  rw [fixKeys_strKeys, fixKeys_strKeys, fixKeys_strKeys, fixKeys_strKeys,
    pySetOfList_nodup _ h1, pySetOfList_nodup _ h2]

/-- C6. One serialize–decode cycle is a fixed point of the context encoding:
for every projected state (whose sets, as Python sets, are duplicate-free),
`serialize(decode(serialize(s))) = serialize(s)` — the decoder's `_fix_keys`
re-coerces the JSON-stringified integer keys of `event_to_call_id`,
`retries`, `results` and `with_errors`, and `scheduled` / `timed_out` are
rebuilt from their serialized lists. -/
theorem context_roundtrip (s : WfState) (h1 : s.scheduled.Nodup)
    (h2 : s.timed_out.Nodup) :
    serializeContext (restoreContext (serializeContext s)) = serializeContext s := by
  rw [restore_serialize s h1 h2]

/-- Witness for C6 at a populated state with multi-digit keys and a negative
retry count. -/
theorem context_roundtrip_witness :
    serializeContext (restoreContext (serializeContext exCtxState)) =
      serializeContext exCtxState :=
  context_roundtrip exCtxState (by decide) (by decide)

end FlowyClient
